import Mathlib

/-!
Shallow embedding of the product-search backend (`backend.py`) of the
repository under verification.

Conventions of the embedding:
* Python metadata dictionaries are association lists `List (String × Val)`
  in which the LEFTMOST binding of a key wins.  Python's `d.update(u)` is
  embedded as `u ++ d`, and `d[k] = v` as `(k, v) :: d`; both agree with
  the Python operations on every lookup (`d.get(k)`), which is the only way
  the backend observes a dictionary.
* Python `None` is the value `Val.none`; a key that is absent from the
  dictionary yields `Option.none` on lookup, so presence-with-None and
  absence are distinguished, as in Python.
* The Chroma text collection is an association list from key strings to
  records (document text plus metadata), with the same leftmost-wins
  convention; `upsert` prepends, `get` takes the leftmost match.
* Embedding vectors play no role in any verified property, so search
  endpoints are parameterised by the raw nearest-neighbour hit list the
  vector index would return (metadata, document, distance per hit), and
  distances are modelled as rationals.
* Python strings are Lean `String`s; `str.strip()`, `str.split(",")` and
  `",".join` are re-implemented character-exactly on `List Char`.
-/

/-- A Python value as it occurs in the backend's metadata dictionaries:
`None`, a string, or a boolean. -/
inductive Val where
  | none : Val
  | str (s : String) : Val
  | bool (b : Bool) : Val
deriving DecidableEq, Repr

/-- Python truthiness of a metadata value: `None` and `""` and `False` are
falsy, everything else here is truthy. -/
def pyTruthy : Val → Bool
  | Val.none => false
  | Val.str s => !(s == "")
  | Val.bool b => b

/-- Python `str()` of a metadata value (used by f-string interpolation and
by `str(img_str)` in the backend). -/
def pyStrVal : Val → String
  | Val.none => "None"
  | Val.str s => s
  | Val.bool b => if b then "True" else "False"

/-- Python `a or b` on metadata values: `a` if truthy, else `b`. -/
def pyOrV (a b : Val) : Val := if pyTruthy a then a else b

/-- A Python dictionary with string keys, as an association list in which
the leftmost binding of a key wins. -/
abbrev Dict : Type := List (String × Val)

/-- Lookup `d.get(k)`: `Option.none` when the key is absent, otherwise the
value (possibly `Val.none`). -/
def dictGet (d : Dict) (k : String) : Option Val :=
  (d.find? (fun kv => kv.1 == k)).map (fun kv => kv.2)

/-- Lookup `d.get(k)` followed by Python's implicit `None` for a missing
key: the value the backend actually works with. -/
def vget (d : Dict) (k : String) : Val := (dictGet d k).getD Val.none

/-- Python `base.update(upd)`, observed through lookups: bindings of `upd`
shadow bindings of `base`. -/
def dictUpdate (base upd : Dict) : Dict := upd ++ base

/-- Python dictionary equality `==`: same value (or absence) at every key;
insertion order is irrelevant, exactly as for Python `dict.__eq__`. -/
def dictEqv (a b : Dict) : Prop := ∀ k, dictGet a k = dictGet b k

/-- Python whitespace-strip of a character list from both ends
(`str.strip()`). -/
def trimL (l : List Char) : List Char :=
  ((l.dropWhile Char.isWhitespace).reverse.dropWhile Char.isWhitespace).reverse

/-- Python `s.strip()`. -/
def pyStrip (s : String) : String := String.mk (trimL s.data)

/-- Python `s.split(",")` on a character list: splits at every comma,
keeps empty pieces, and the empty input yields one empty piece. -/
def splitCommaL : List Char → List (List Char)
  | [] => [[]]
  | c :: cs =>
    if c = ',' then [] :: splitCommaL cs
    else
      match splitCommaL cs with
      | [] => [[c]]
      | p :: ps => (c :: p) :: ps

/-- The backend's list comprehension
`[s.strip() for s in x.split(",") if s.strip()]` on a character list. -/
def pyParseImagesL (l : List Char) : List (List Char) :=
  (splitCommaL l).filterMap (fun p => let t := trimL p; if t = [] then none else some t)

/-- Comma-split, strip each piece, drop the pieces that strip to empty:
the backend's canonical image-string parse. -/
def pyParseImages (s : String) : List String :=
  (pyParseImagesL s.data).map String.mk

/-- Python `",".join` on character lists. -/
def joinImagesL : List (List Char) → List Char
  | [] => []
  | [s] => s
  | s :: t => s ++ ',' :: joinImagesL t

/-- Python `",".join(list)`: the canonical comma-joined storage form of an
image list. -/
def joinImages (l : List String) : String := String.mk (joinImagesL (l.map String.data))

/-- The function `normalize_image_list` of `backend.py` restricted to the
list-input branch: `[str(x).strip() for x in images_field if str(x).strip()]`.
(The source also accepts a single string, which takes a different branch
not needed by any claim.) -/
def normalize_image_list (l : List String) : List String :=
  l.filterMap (fun s => let t := pyStrip s; if t = "" then none else some t)

/-- The function `parse_images_from_meta` of `backend.py`: read
`meta.get("images")` (with `""` when the dict itself is falsy), return
`[]` when that is falsy, else comma-split / strip / drop empties of its
`str()`. -/
def parse_images_from_meta (meta : Dict) : List String :=
  let imgv : Val := if meta.isEmpty then Val.str "" else vget meta "images"
  if pyTruthy imgv then pyParseImages (pyStrVal imgv) else []

/-- Python `round(x, 3)` on a rational (the backend rounds similarity
scores to three decimals; exact ties, where Python's float rounding is
half-to-even, do not occur in any verified statement). -/
def round3 (q : ℚ) : ℚ := ((round (q * 1000) : ℤ) : ℚ) / 1000

/-- One entry of a search/listing response, as assembled by
`build_result_from_meta`. -/
structure ResultEntry where
  id : Val
  oem_id : Val
  name : Val
  description : Val
  images : List String
  specifications : Val
  similarity_score : Option ℚ
  rank : Option Nat
deriving DecidableEq, Repr

/-- The function `build_result_from_meta` of `backend.py`: `None` (skip)
when `meta.get("deleted")` is truthy, otherwise the result record; the
description falls back to the whole document text, the specifications
value is passed through verbatim. -/
def build_result_from_meta (meta : Dict) (doc : Option String)
    (distance : Option ℚ) (rank : Option Nat) : Option ResultEntry :=
  if pyTruthy (vget meta "deleted") then none
  else some {
    id := vget meta "id"
    oem_id := vget meta "oem_id"
    name := vget meta "name"
    description := pyOrV (vget meta "description") (Val.str (doc.getD ""))
    images := parse_images_from_meta meta
    specifications := vget meta "specifications"
    similarity_score := distance.map (fun d => round3 (1 - d))
    rank := rank }

/-- One stored record of the text collection: document text plus
metadata. -/
structure Rec where
  doc : String
  meta : Dict
deriving DecidableEq, Repr

/-- The text collection: keys to records, leftmost binding wins. -/
abbrev Store : Type := List (String × Rec)

/-- Observable content of `collection.get(ids=[k])`: the record stored
under `k`, if any. -/
def storeGet (store : Store) (k : String) : Option Rec :=
  (store.find? (fun kr => kr.1 == k)).map (fun kr => kr.2)

/-- Observable content of `collection.upsert` under the leftmost-wins
convention. -/
def storeUpsert (store : Store) (k : String) (r : Rec) : Store :=
  (k, r) :: store

/-- A raw nearest-neighbour hit as the vector index returns it:
metadata, document text, distance. -/
structure Hit where
  meta : Dict
  doc : String
  dist : ℚ
deriving DecidableEq, Repr

/-- The `for i, (m, doc, d) in enumerate(...)` loop body of
`search_text`, carrying the running enumeration index. -/
def buildLoop : List Hit → Nat → List ResultEntry
  | [], _ => []
  | h :: t, i =>
    match build_result_from_meta h.meta (some h.doc) (some h.dist) (some (i + 1)) with
    | some item => item :: buildLoop t (i + 1)
    | none => buildLoop t (i + 1)

/-- The route `search_text` of `backend.py`, parameterised by the raw hit
list the text index returns for the (stripped) query: blank queries
short-circuit to an empty result before any index access. -/
def search_text (q : String) (hits : List Hit) : List ResultEntry :=
  if pyStrip q = "" then [] else buildLoop hits 0

/-- The seven metadata keys the image-search hydration copies from the
text record. -/
def hydrationKeys : List String :=
  ["name", "description", "images", "specifications", "id", "oem_id", "deleted"]

/-- The dictionary comprehension over the seven hydration keys in
`search_image` (every one of the seven keys is present in the patch, with
`None` where the text record's metadata lacks it). -/
def hydrationPatch (tmeta : Dict) : Dict :=
  hydrationKeys.map (fun k => (k, vget tmeta k))

/-- The per-hit hydration step of `search_image`: look up the key
`text-` followed by `m.get("id")` in the text collection, and when a
record with non-empty metadata is found, overwrite the seven hydration
keys of the hit's own metadata with the text record's values. -/
def imageHydrate (store : Store) (m : Dict) : Dict :=
  match storeGet store ("text-" ++ pyStrVal (vget m "id")) with
  | some r => if r.meta.isEmpty then m else dictUpdate m (hydrationPatch r.meta)
  | none => m

/-- The `for i, (m, doc, d) in enumerate(...)` loop of `search_image`:
skip hits whose own metadata is already marked deleted, hydrate the rest,
build the result entry with rank `i + 1`. -/
def imageLoop (store : Store) : List Hit → Nat → List ResultEntry
  | [], _ => []
  | h :: t, i =>
    if pyTruthy (vget h.meta "deleted") then imageLoop store t (i + 1)
    else
      match build_result_from_meta (imageHydrate store h.meta) (some h.doc)
          (some h.dist) (some (i + 1)) with
      | some item => item :: imageLoop store t (i + 1)
      | none => imageLoop store t (i + 1)

/-- The route `search_image` of `backend.py`, parameterised by the raw
hit list the image index returns for the decoded query image. -/
def search_image (store : Store) (hits : List Hit) : List ResultEntry :=
  imageLoop store hits 0

/-- Outcome tag of a mutation endpoint (`/insert`, `/update`,
`/delete`): which message/error branch returned. -/
inductive MutResult where
  | errNoId : MutResult
  | alreadyExists : MutResult
  | inserted : MutResult
  | notFound : MutResult
  | updated : MutResult
deriving DecidableEq, Repr

/-- The route `insert_product` of `backend.py`: reject a missing id;
report "already exists" when a record with non-empty metadata whose
`deleted` (default `False`) is falsy sits under the `text-` key;
otherwise build a fresh metadata record with `deleted = False`, derive
the embeddable document as `description or name or ""`, and upsert. -/
def insert_product (payload : Dict) (store : Store) : MutResult × Store :=
  let pid := vget payload "id"
  if !(pyTruthy pid) then (MutResult.errNoId, store)
  else
    let key := "text-" ++ pyStrVal pid
    let existsLive : Bool :=
      match storeGet store key with
      | some r => !r.meta.isEmpty
          && !(pyTruthy ((dictGet r.meta "deleted").getD (Val.bool false)))
      | none => false
    if existsLive then (MutResult.alreadyExists, store)
    else
      let meta : Dict := [("id", pid), ("name", vget payload "name"),
        ("description", vget payload "description"), ("images", vget payload "images"),
        ("specifications", vget payload "specifications"), ("deleted", Val.bool false)]
      let docText := pyStrVal (pyOrV (vget meta "description") (pyOrV (vget meta "name") (Val.str "")))
      (MutResult.inserted, storeUpsert store key ⟨docText, meta⟩)

/-- The route `update_product` of `backend.py`: reject a missing id;
"not found" when no record with non-empty metadata sits under the
`text-` key; otherwise `meta.update(payload)`, force
`meta["deleted"] = False`, re-derive the embeddable document as
`description or name or ""`, and upsert. -/
def update_product (payload : Dict) (store : Store) : MutResult × Store :=
  let pid := vget payload "id"
  if !(pyTruthy pid) then (MutResult.errNoId, store)
  else
    let key := "text-" ++ pyStrVal pid
    match storeGet store key with
    | none => (MutResult.notFound, store)
    | some r =>
      if r.meta.isEmpty then (MutResult.notFound, store)
      else
        let meta : Dict := ("deleted", Val.bool false) :: dictUpdate r.meta payload
        let docText := pyStrVal (pyOrV (vget meta "description") (pyOrV (vget meta "name") (Val.str "")))
        (MutResult.updated, storeUpsert store key ⟨docText, meta⟩)

/-- A well-formed text collection: every stored record carries non-empty
metadata (every writer of this system stores a six-field dictionary, so
this holds of every reachable store). -/
def WFStore (store : Store) : Prop :=
  ∀ k r, storeGet store k = some r → r.meta ≠ []

/-- Whether `search_text` keeps a hit: its metadata's `deleted` is not
truthy (otherwise `build_result_from_meta` skips it). -/
def hitKept (h : Hit) : Bool := !(pyTruthy (vget h.meta "deleted"))

/-- Whether `search_image` keeps a hit: neither the hit's own `deleted`
nor the hydrated metadata's `deleted` is truthy. -/
def imageHitKept (store : Store) (h : Hit) : Bool :=
  !(pyTruthy (vget h.meta "deleted")) && !(pyTruthy (vget (imageHydrate store h.meta) "deleted"))

/-- The metadata merge of the source, as a named function: the spec's
`merge(priority, fallback)` is implemented by `fallback.update(priority)`
(line 212 of `backend.py`, `meta.update(payload)`, with the stored record
as base and the incoming payload as priority). -/
def pymerge (priority fallback : Dict) : Dict := dictUpdate fallback priority

/-- Modelled from the spec: the claimed per-field merge rule, "take the
priority record's value if it is non-empty, else the fallback's".  Used
only to compare the spec's words with the source's `pymerge`. -/
def spec_merge_field (a b : Dict) (k : String) : Option Val :=
  if pyTruthy (vget a k) then dictGet a k else dictGet b k

/-- Helper for the spec's legacy description convention: drop everything
up to and including the first `": "` separator, if any. -/
def splitColonSpace : List Char → Option (List Char)
  | [] => none
  | ':' :: ' ' :: rest => some rest
  | _ :: rest => splitColonSpace rest

/-- Modelled from the spec: derive a description from a stored embeddable
document by splitting on the first `": "` separator and taking the
remainder (the legacy convention the spec claims the code preserves).
Used only to compare the spec's words with the source's
`build_result_from_meta`. -/
def spec_derive_description (s : String) : String :=
  match splitColonSpace s.data with
  | some r => String.mk r
  | none => s

/-- Basic fact: a lookup over an appended association list tries the left
part first. -/
theorem dictGet_append (a b : Dict) (k : String) :
    dictGet (a ++ b) k = (dictGet a k).orElse (fun _ => dictGet b k) := by
  induction a with
  | nil => rfl
  | cons hd t ih =>
    by_cases h : hd.1 == k
    · simp [dictGet, List.find?, h]
    · simp only [List.cons_append]
      simp [dictGet, List.find?, h] at ih ⊢
      exact ih

/-- Basic fact: a record is skipped by the response builder exactly when
its `deleted` metadata is truthy. -/
theorem build_eq_none_iff (m : Dict) (doc : Option String) (d : Option ℚ) (r : Option Nat) :
    build_result_from_meta m doc d r = none ↔ pyTruthy (vget m "deleted") = true := by
  by_cases h : pyTruthy (vget m "deleted") <;> simp [build_result_from_meta, h]

/-- Basic fact: a kept record carries exactly the rank it was built
with. -/
theorem build_rank_eq (m : Dict) (doc : Option String) (d : Option ℚ) (r : Option Nat)
    (item : ResultEntry) (h : build_result_from_meta m doc d r = some item) :
    item.rank = r := by
  by_cases hd : pyTruthy (vget m "deleted") <;> simp [build_result_from_meta, hd] at h
  rw [← h]

/-- Basic fact: the comma split never returns an empty list of pieces. -/
theorem splitCommaL_ne_nil (l : List Char) : splitCommaL l ≠ [] := by
  induction l with
  | nil => simp [splitCommaL]
  | cons c cs ih =>
    by_cases h : c = ','
    · simp [splitCommaL, h]
    · simp only [splitCommaL, h, if_false]
      match hs : splitCommaL cs with
      | [] => simp
      | p :: ps => simp

/-- Basic fact: a comma-free piece splits to itself alone. -/
theorem splitCommaL_no_comma (p : List Char) (hp : ',' ∉ p) : splitCommaL p = [p] := by
  induction p with
  | nil => rfl
  | cons c cs ih =>
    have hc : c ≠ ',' := fun h => hp (h ▸ List.mem_cons_self c cs)
    have hcs : ',' ∉ cs := fun h => hp (List.mem_cons_of_mem c h)
    simp only [splitCommaL, hc, if_false]
    rw [ih hcs]

/-- Basic fact: splitting a comma-free piece followed by a comma peels the
piece off. -/
theorem splitCommaL_append_comma (p rest : List Char) (hp : ',' ∉ p) :
    splitCommaL (p ++ ',' :: rest) = p :: splitCommaL rest := by
  induction p with
  | nil => simp [splitCommaL]
  | cons c cs ih =>
    have hc : c ≠ ',' := fun h => hp (h ▸ List.mem_cons_self c cs)
    have hcs : ',' ∉ cs := fun h => hp (List.mem_cons_of_mem c h)
    simp only [List.cons_append, splitCommaL, hc, if_false]
    rw [show cs.append (',' :: rest) = cs ++ ',' :: rest from rfl, ih hcs]

/-- Core round trip on character lists: parsing the comma-join of
non-empty, trim-stable, comma-free pieces returns the pieces. -/
theorem pyParseImagesL_joinImagesL (L : List (List Char))
    (h : ∀ p ∈ L, p ≠ [] ∧ trimL p = p ∧ ',' ∉ p) :
    pyParseImagesL (joinImagesL L) = L := by
  induction L with
  | nil => rfl
  | cons p t ih =>
    obtain ⟨hp1, hp2, hp3⟩ := h p (List.mem_cons_self p t)
    match t with
    | [] =>
      show pyParseImagesL (joinImagesL [p]) = [p]
      unfold pyParseImagesL
      rw [show joinImagesL [p] = p from rfl, splitCommaL_no_comma p hp3]
      simp [hp2, hp1]
    | q :: t' =>
      have ht : ∀ x ∈ q :: t', x ≠ [] ∧ trimL x = x ∧ ',' ∉ x :=
        fun x hx => h x (List.mem_cons_of_mem p hx)
      have hj : joinImagesL (p :: q :: t') = p ++ ',' :: joinImagesL (q :: t') := rfl
      unfold pyParseImagesL
      rw [hj, splitCommaL_append_comma _ _ hp3]
      simp only [List.filterMap_cons, hp2, hp1, if_neg hp1]
      exact congrArg _ (ih ht)

/-- Basic fact: rebuilding a string from its characters is the
identity. -/
theorem string_mk_data (s : String) : String.mk s.data = s := rfl

/-- Basic fact: under the round-trip hypotheses, the write-side
normalisation of an image list is the identity. -/
theorem normalize_image_list_eq_self (l : List String)
    (h : ∀ s ∈ l, s ≠ "" ∧ pyStrip s = s) : normalize_image_list l = l := by
  induction l with
  | nil => rfl
  | cons s t ih =>
    obtain ⟨h1, h2⟩ := h s (List.mem_cons_self s t)
    have ht : ∀ x ∈ t, x ≠ "" ∧ pyStrip x = x := fun x hx => h x (List.mem_cons_of_mem s hx)
    simp only [normalize_image_list, List.filterMap_cons, h2, if_neg h1]
    exact congrArg _ (ih ht)

/-- Ranks emitted by the text-search loop: one plus the enumeration index
of each kept hit, where the enumeration counts every input hit, deleted
ones included. -/
theorem buildLoop_map_rank (t : List Hit) (i : Nat) :
    (buildLoop t i).map (fun e => e.rank) =
      ((t.enumFrom i).filter (fun p => hitKept p.2)).map (fun p => some (p.1 + 1)) := by
  induction t generalizing i with
  | nil => rfl
  | cons h t ih =>
    by_cases hd : pyTruthy (vget h.meta "deleted")
    · simp [buildLoop, build_result_from_meta, hd, List.enumFrom, hitKept, ih]
    · simp [buildLoop, build_result_from_meta, hd, List.enumFrom, hitKept, ih]

/-- Ranks emitted by the image-search loop: one plus the enumeration
index of each kept hit (kept means neither the raw nor the hydrated
metadata is marked deleted). -/
theorem imageLoop_map_rank (store : Store) (t : List Hit) (i : Nat) :
    (imageLoop store t i).map (fun e => e.rank) =
      ((t.enumFrom i).filter (fun p => imageHitKept store p.2)).map (fun p => some (p.1 + 1)) := by
  induction t generalizing i with
  | nil => rfl
  | cons h t ih =>
    by_cases hr : pyTruthy (vget h.meta "deleted")
    · simp [imageLoop, hr, List.enumFrom, imageHitKept, ih]
    · by_cases hh : pyTruthy (vget (imageHydrate store h.meta) "deleted")
      · simp [imageLoop, build_result_from_meta, hr, hh, List.enumFrom, imageHitKept, ih]
      · simp [imageLoop, build_result_from_meta, hr, hh, List.enumFrom, imageHitKept, ih]

/-- C9 (amended): for every list of non-empty, trim-stable, comma-free
URL strings, normalising, joining into the canonical comma-joined storage
string, and parsing back (comma-split, trim, drop empties) returns the
original list in order.  (The comma-free condition is forced: a URL
containing a comma is split apart, see the counterexample.) -/
theorem c9_images_roundtrip (l : List String)
    (h : ∀ s ∈ l, s ≠ "" ∧ pyStrip s = s ∧ ',' ∉ s.data) :
    pyParseImages (joinImages (normalize_image_list l)) = l := by
  rw [normalize_image_list_eq_self l (fun s hs => ⟨(h s hs).1, (h s hs).2.1⟩)]
  show (pyParseImagesL (joinImagesL (l.map String.data))).map String.mk = l
  rw [pyParseImagesL_joinImagesL]
  · rw [List.map_map]
    have hid : (String.mk ∘ String.data) = id := funext string_mk_data
    rw [hid, List.map_id]
  · intro p hp
    obtain ⟨s, hs, rfl⟩ := List.mem_map.1 hp
    obtain ⟨h1, h2, h3⟩ := h s hs
    refine ⟨?_, ?_, h3⟩
    · intro hd
      exact h1 (by rw [← string_mk_data s, hd])
    · exact congrArg String.data h2

/-- C9 (counterexample): the claim as stated fails on a valid URL that
contains a comma — a one-element list of a non-empty, trim-stable URL
string does not survive the join/parse round trip. -/
theorem c9_counterexample :
    joinImages (normalize_image_list ["http://shop.example/item?colors=red,blue"]) =
      "http://shop.example/item?colors=red,blue" ∧
    pyParseImages (joinImages (normalize_image_list ["http://shop.example/item?colors=red,blue"])) =
      ["http://shop.example/item?colors=red", "blue"] ∧
    (["http://shop.example/item?colors=red", "blue"] : List String) ≠
      ["http://shop.example/item?colors=red,blue"] := by
  decide

/-- C9 (witness): the round trip evaluated on a concrete two-URL list. -/
theorem c9_witness :
    pyParseImages (joinImages (normalize_image_list
      ["http://a.example/one.png", "http://b.example/two.png"])) =
      ["http://a.example/one.png", "http://b.example/two.png"] :=
  c9_images_roundtrip ["http://a.example/one.png", "http://b.example/two.png"] (by decide)

/-- C10: a query that is empty or whitespace-only makes `search_text`
return the empty result list, whatever hit list the text index would
have produced — the result does not depend on the index at all. -/
theorem c10_blank_query (q : String) (hits hits' : List Hit)
    (hq : ∀ c ∈ q.data, c.isWhitespace = true) :
    search_text q hits = [] ∧ search_text q hits = search_text q hits' := by
  have h1 : q.data.dropWhile Char.isWhitespace = [] := by
    rw [List.dropWhile_eq_nil_iff]
    intro x hx
    exact hq x hx
  have hstrip : pyStrip q = "" := by
    unfold pyStrip trimL
    rw [h1]
    rfl
  constructor <;> simp [search_text, hstrip]

/-- C10 (witness): a whitespace-only query on a non-trivial hit list. -/
theorem c10_witness :
    search_text "  " [⟨[("id", Val.str "p1")], "doc", 0⟩] = [] ∧
    search_text "  " [⟨[("id", Val.str "p1")], "doc", 0⟩] = search_text "  " [] :=
  c10_blank_query "  " [⟨[("id", Val.str "p1")], "doc", 0⟩] [] (by decide)

/-- C2 (amended): both search paths assign `rank = input position + 1`,
where the position counts every raw hit, deleted ones included: kept
results carry strictly increasing ranks that may skip the slots consumed
by deleted hits, instead of the dense post-filter numbering the claim
states. -/
theorem c2_rank_is_prefilter_position (q : String) (hits : List Hit) (store : Store)
    (hq : pyStrip q ≠ "") :
    (search_text q hits).map (fun e => e.rank) =
      (hits.enum.filter (fun p => hitKept p.2)).map (fun p => some (p.1 + 1)) ∧
    (search_image store hits).map (fun e => e.rank) =
      (hits.enum.filter (fun p => imageHitKept store p.2)).map (fun p => some (p.1 + 1)) := by
  constructor
  · have : search_text q hits = buildLoop hits 0 := by simp [search_text, hq]
    rw [this]
    exact buildLoop_map_rank hits 0
  · exact imageLoop_map_rank store hits 0

/-- C2 (counterexample): five hits of which the second and fourth are
deleted yield ranks 1, 3, 5 — not the dense 1, 2, 3 the claim states. -/
theorem c2_counterexample :
    (search_text "q" [⟨[("id", Val.str "a")], "d", 0⟩, ⟨[("deleted", Val.bool true)], "d", 0⟩,
        ⟨[("id", Val.str "c")], "d", 0⟩, ⟨[("deleted", Val.bool true)], "d", 0⟩,
        ⟨[("id", Val.str "e")], "d", 0⟩]).map (fun e => e.rank) = [some 1, some 3, some 5] ∧
    ([some 1, some 3, some 5] : List (Option Nat)) ≠ [some 1, some 2, some 3] := by
  decide

/-- C2 (witness): the amended rank law evaluated on a concrete hit list
with one deleted hit, on both search paths. -/
theorem c2_witness :
    (search_text "watch" [⟨[("id", Val.str "a")], "d", 0⟩, ⟨[("deleted", Val.bool true)], "d", 0⟩,
        ⟨[("id", Val.str "c")], "d", 0⟩]).map (fun e => e.rank) =
      (([⟨[("id", Val.str "a")], "d", 0⟩, ⟨[("deleted", Val.bool true)], "d", 0⟩,
        ⟨[("id", Val.str "c")], "d", 0⟩] : List Hit).enum.filter
          (fun p => hitKept p.2)).map (fun p => some (p.1 + 1)) ∧
    (search_image [] [⟨[("id", Val.str "a")], "d", 0⟩, ⟨[("deleted", Val.bool true)], "d", 0⟩,
        ⟨[("id", Val.str "c")], "d", 0⟩]).map (fun e => e.rank) =
      (([⟨[("id", Val.str "a")], "d", 0⟩, ⟨[("deleted", Val.bool true)], "d", 0⟩,
        ⟨[("id", Val.str "c")], "d", 0⟩] : List Hit).enum.filter
          (fun p => imageHitKept [] p.2)).map (fun p => some (p.1 + 1)) :=
  c2_rank_is_prefilter_position "watch"
    [⟨[("id", Val.str "a")], "d", 0⟩, ⟨[("deleted", Val.bool true)], "d", 0⟩,
      ⟨[("id", Val.str "c")], "d", 0⟩] [] (by decide)

/-- C8 (amended): the source's merge (`dict.update`) takes the priority
record's value for every key PRESENT in it — even an empty value — else
the fallback's, else the key is absent; the identity laws and idempotence
hold as claimed.  (The claim's "non-empty wins" rule fails, see the
counterexample: presence, not non-emptiness, decides.) -/
theorem c8_merge_semantics (a b : Dict) :
    (∀ k, dictGet (pymerge a b) k = (dictGet a k).orElse (fun _ => dictGet b k)) ∧
    pymerge a [] = a ∧ pymerge [] b = b ∧
    dictEqv (pymerge (pymerge a b) b) (pymerge a b) := by
  refine ⟨fun k => dictGet_append a b k, List.append_nil a, rfl, fun k => ?_⟩
  show dictGet ((a ++ b) ++ b) k = dictGet (a ++ b) k
  simp only [dictGet_append]
  cases dictGet a k <;> cases dictGet b k <;> rfl

/-- C8 (counterexample): a priority record holding an explicit empty
string beats a non-empty fallback value, contradicting the claimed
"non-empty from `a`, else from `b`" field rule. -/
theorem c8_counterexample :
    dictGet (pymerge [("name", Val.str "")] [("name", Val.str "Headphones")]) "name" =
      some (Val.str "") ∧
    spec_merge_field [("name", Val.str "")] [("name", Val.str "Headphones")] "name" =
      some (Val.str "Headphones") ∧
    (some (Val.str "") : Option Val) ≠ some (Val.str "Headphones") := by
  decide

/-- C8 (witness): the amended merge laws evaluated on concrete
records. -/
theorem c8_witness :
    dictGet (pymerge [("x", Val.str "1")] [("y", Val.str "2")]) "y" =
      (dictGet [("x", Val.str "1")] "y").orElse (fun _ => dictGet [("y", Val.str "2")] "y") ∧
    dictGet (pymerge (pymerge [("x", Val.str "1")] [("y", Val.str "2")]) [("y", Val.str "2")]) "y" =
      dictGet (pymerge [("x", Val.str "1")] [("y", Val.str "2")]) "y" :=
  ⟨(c8_merge_semantics [("x", Val.str "1")] [("y", Val.str "2")]).1 "y",
   (c8_merge_semantics [("x", Val.str "1")] [("y", Val.str "2")]).2.2.2 "y"⟩

/-- C5 (amended): when a result's `description` metadata is empty or
absent (and the record is not deleted), the returned description is the
WHOLE stored document text, not the remainder after the first `": "`
separator: no legacy split is performed. -/
theorem c5_description_whole_doc (meta : Dict) (doc : String) (d : Option ℚ) (rk : Option Nat)
    (hdel : pyTruthy (vget meta "deleted") = false)
    (hdesc : pyTruthy (vget meta "description") = false) :
    ∃ item, build_result_from_meta meta (some doc) d rk = some item ∧
      item.description = Val.str doc := by
  unfold build_result_from_meta
  rw [hdel]
  refine ⟨_, rfl, ?_⟩
  simp [pyOrV, hdesc]

/-- C5 (counterexample): for a record stored under the legacy
`name: description` document convention with no description metadata,
the backend returns the whole document, which differs from the
spec-claimed split remainder. -/
theorem c5_counterexample :
    (build_result_from_meta [("id", Val.str "p1")]
        (some "Headphones: Noise cancelling") none none).map (fun e => e.description) =
      some (Val.str "Headphones: Noise cancelling") ∧
    spec_derive_description "Headphones: Noise cancelling" = "Noise cancelling" ∧
    (Val.str "Headphones: Noise cancelling") ≠ Val.str "Noise cancelling" := by
  decide

/-- C5 (witness): the amended whole-document fallback evaluated on a
concrete record. -/
theorem c5_witness :
    ∃ item, build_result_from_meta [("id", Val.str "p1")]
        (some "Headphones: Noise cancelling") none none = some item ∧
      item.description = Val.str "Headphones: Noise cancelling" :=
  c5_description_whole_doc [("id", Val.str "p1")] "Headphones: Noise cancelling" none none
    (by decide) (by decide)

/-- C7 (amended): the response builder never fails on the
`specifications` field because it attempts no structured parsing at all:
whenever a result is produced, the field is the raw stored value
verbatim — including a string that is not valid JSON — rather than an
empty structured value. -/
theorem c7_specs_passthrough (meta : Dict) (doc : Option String) (d : Option ℚ) (rk : Option Nat)
    (hdel : pyTruthy (vget meta "deleted") = false) :
    ∃ item, build_result_from_meta meta doc d rk = some item ∧
      item.specifications = vget meta "specifications" := by
  unfold build_result_from_meta
  rw [hdel]
  exact ⟨_, rfl, rfl⟩

/-- C7 (counterexample): a stored `specifications` string on which JSON
parsing fails is returned as the raw unparsed string, not degraded to an
empty structured value. -/
theorem c7_counterexample :
    (build_result_from_meta [("id", Val.str "p1"), ("specifications", Val.str "not valid json at all")]
        (some "doc") none none).map (fun e => e.specifications) =
      some (Val.str "not valid json at all") ∧
    (Val.str "not valid json at all") ≠ Val.str "" ∧
    (Val.str "not valid json at all") ≠ Val.none := by
  decide

/-- C7 (witness): the raw pass-through evaluated on a concrete record
whose specifications string is unparseable. -/
theorem c7_witness :
    ∃ item, build_result_from_meta
        [("id", Val.str "p1"), ("specifications", Val.str "not valid json at all")]
        (some "doc") none none = some item ∧
      item.specifications =
        vget [("id", Val.str "p1"), ("specifications", Val.str "not valid json at all")]
          "specifications" :=
  c7_specs_passthrough [("id", Val.str "p1"), ("specifications", Val.str "not valid json at all")]
    (some "doc") none none (by decide)

/-- Basic fact: upserting a record makes it the one retrieved under its
key. -/
theorem storeGet_upsert_self (store : Store) (k : String) (r : Rec) :
    storeGet (storeUpsert store k r) k = some r := by
  unfold storeGet storeUpsert
  rw [List.find?_cons_of_pos _ (by simp)]
  rfl

/-- C3 (amended): when the text lookup finds a record with non-empty
metadata, hydration overwrites ALL seven hydration keys of the image
hit's metadata with the text record's values (absent text fields become
`None`), and leaves every other key of the image hit untouched — the
reverse of the claimed image-copy-wins priority. -/
theorem c3_hydration_text_wins (store : Store) (m : Dict) (r : Rec) (k : String)
    (hr : storeGet store ("text-" ++ pyStrVal (vget m "id")) = some r)
    (hne : r.meta ≠ []) :
    (k ∈ hydrationKeys → dictGet (imageHydrate store m) k = some (vget r.meta k)) ∧
    (k ∉ hydrationKeys → dictGet (imageHydrate store m) k = dictGet m k) := by
  have hie : r.meta.isEmpty = false := by
    cases hm : r.meta with
    | nil => exact absurd hm hne
    | cons a t => rfl
  have hh : imageHydrate store m = dictUpdate m (hydrationPatch r.meta) := by
    unfold imageHydrate
    rw [hr]
    simp [hie]
  constructor
  · intro hk
    rw [hh]
    show dictGet (hydrationPatch r.meta ++ m) k = some (vget r.meta k)
    rw [dictGet_append]
    have hcases : k = "name" ∨ k = "description" ∨ k = "images" ∨ k = "specifications" ∨
        k = "id" ∨ k = "oem_id" ∨ k = "deleted" := by simpa [hydrationKeys] using hk
    rcases hcases with rfl | rfl | rfl | rfl | rfl | rfl | rfl <;> rfl
  · intro hk
    rw [hh]
    show dictGet (hydrationPatch r.meta ++ m) k = dictGet m k
    rw [dictGet_append]
    have hfind : (hydrationPatch r.meta).find? (fun kv => kv.1 == k) = none := by
      rw [List.find?_eq_none]
      intro x hx
      obtain ⟨k', hk', rfl⟩ := List.mem_map.1 hx
      simp only [beq_iff_eq]
      intro hEq
      exact hk (hEq ▸ hk')
    unfold dictGet
    rw [hfind]
    rfl

/-- C3 (counterexample): hydration replaces the image hit's non-empty
`name` with the text record's value, and replaces its non-empty `oem_id`
with `None` because the text record lacks that field — the image index's
denormalized copy does not win on fields it has non-empty. -/
theorem c3_counterexample :
    dictGet (imageHydrate
        [("text-p1", ⟨"d", [("id", Val.str "p1"), ("name", Val.str "TextName")]⟩)]
        [("id", Val.str "p1"), ("name", Val.str "ImageName"), ("oem_id", Val.str "X1")]) "name" =
      some (Val.str "TextName") ∧
    (Val.str "TextName") ≠ Val.str "ImageName" ∧
    dictGet (imageHydrate
        [("text-p1", ⟨"d", [("id", Val.str "p1"), ("name", Val.str "TextName")]⟩)]
        [("id", Val.str "p1"), ("name", Val.str "ImageName"), ("oem_id", Val.str "X1")]) "oem_id" =
      some Val.none := by
  decide

/-- C3 (witness): the amended hydration law evaluated at a concrete
store and image hit, for one hydration key and one foreign key. -/
theorem c3_witness :
    dictGet (imageHydrate
        [("text-p1", ⟨"d", [("id", Val.str "p1"), ("name", Val.str "TextName")]⟩)]
        [("id", Val.str "p1"), ("name", Val.str "ImageName"), ("extra", Val.str "E")]) "name" =
      some (vget [("id", Val.str "p1"), ("name", Val.str "TextName")] "name") ∧
    dictGet (imageHydrate
        [("text-p1", ⟨"d", [("id", Val.str "p1"), ("name", Val.str "TextName")]⟩)]
        [("id", Val.str "p1"), ("name", Val.str "ImageName"), ("extra", Val.str "E")]) "extra" =
      dictGet [("id", Val.str "p1"), ("name", Val.str "ImageName"), ("extra", Val.str "E")] "extra" :=
  ⟨(c3_hydration_text_wins
      [("text-p1", ⟨"d", [("id", Val.str "p1"), ("name", Val.str "TextName")]⟩)]
      [("id", Val.str "p1"), ("name", Val.str "ImageName"), ("extra", Val.str "E")]
      ⟨"d", [("id", Val.str "p1"), ("name", Val.str "TextName")]⟩ "name"
      (by decide) (by decide)).1 (by decide),
   (c3_hydration_text_wins
      [("text-p1", ⟨"d", [("id", Val.str "p1"), ("name", Val.str "TextName")]⟩)]
      [("id", Val.str "p1"), ("name", Val.str "ImageName"), ("extra", Val.str "E")]
      ⟨"d", [("id", Val.str "p1"), ("name", Val.str "TextName")]⟩ "extra"
      (by decide) (by decide)).2 (by decide)⟩

/-- Basic fact: a lookup skips a leading binding with a different key. -/
theorem dictGet_cons_ne (k' k : String) (v' : Val) (d : Dict) (h : k' ≠ k) :
    dictGet ((k', v') :: d) k = dictGet d k := by
  unfold dictGet
  rw [List.find?_cons_of_neg _ (by simp [h])]

/-- Basic fact: on its success path (truthy string id, record found with
non-empty metadata) `update_product` upserts the payload-updated
metadata with `deleted` forced to `False`, re-deriving the document from
description-else-name. -/
theorem update_product_success (payload : Dict) (store : Store) (pid : String) (r : Rec)
    (hid : dictGet payload "id" = some (Val.str pid)) (hpid : pid ≠ "")
    (hr : storeGet store ("text-" ++ pid) = some r) (hne : r.meta ≠ []) :
    update_product payload store =
      (MutResult.updated,
        storeUpsert store ("text-" ++ pid)
          ⟨pyStrVal (pyOrV (vget (("deleted", Val.bool false) :: dictUpdate r.meta payload) "description")
              (pyOrV (vget (("deleted", Val.bool false) :: dictUpdate r.meta payload) "name")
                (Val.str ""))),
            ("deleted", Val.bool false) :: dictUpdate r.meta payload⟩) := by
  have hv : vget payload "id" = Val.str pid := by simp [vget, hid]
  have hie : r.meta.isEmpty = false := by
    cases hm : r.meta with
    | nil => exact absurd hm hne
    | cons a t => rfl
  have hc : (!pyTruthy (Val.str pid)) = false := by simp [pyTruthy, hpid]
  unfold update_product
  simp only [hv, hc, Bool.false_eq_true, if_false, pyStrVal]
  rw [hr]
  simp [hie]

/-- C1 (amended): an Update whose fields contain `deleted=true` (or any
successful Update at all) stores the record with `deleted = False` —
the handler unconditionally reactivates the record — so the product is
NOT excluded from subsequent text search: the updated record is never
skipped by the response builder.  Soft deletion cannot be achieved via
Update in this code. -/
theorem c1_update_reactivates (payload : Dict) (store : Store) (pid : String) (r : Rec)
    (hid : dictGet payload "id" = some (Val.str pid)) (hpid : pid ≠ "")
    (hr : storeGet store ("text-" ++ pid) = some r) (hne : r.meta ≠ []) :
    (update_product payload store).1 = MutResult.updated ∧
    ∃ r', storeGet (update_product payload store).2 ("text-" ++ pid) = some r' ∧
      dictGet r'.meta "deleted" = some (Val.bool false) ∧
      ∀ d rk, build_result_from_meta r'.meta (some r'.doc) d rk ≠ none := by
  rw [update_product_success payload store pid r hid hpid hr hne]
  refine ⟨rfl, _, storeGet_upsert_self _ _ _, rfl, ?_⟩
  intro d rk hcontra
  rw [build_eq_none_iff] at hcontra
  have hdel : vget (("deleted", Val.bool false) :: dictUpdate r.meta payload) "deleted" =
      Val.bool false := rfl
  rw [hdel] at hcontra
  simp [pyTruthy] at hcontra

/-- C1 (counterexample): soft-deleting `p1` via Update with
`deleted=true` leaves the stored flag `False`, and a text search whose
raw hits contain the updated record still returns `p1` — the claim's
required exclusion fails. -/
theorem c1_counterexample :
    (update_product [("id", Val.str "p1"), ("deleted", Val.bool true)]
        [("text-p1", ⟨"Headphones", [("id", Val.str "p1"), ("name", Val.str "Headphones")]⟩)]).1 =
      MutResult.updated ∧
    (storeGet (update_product [("id", Val.str "p1"), ("deleted", Val.bool true)]
        [("text-p1", ⟨"Headphones", [("id", Val.str "p1"), ("name", Val.str "Headphones")]⟩)]).2
        "text-p1").map (fun r => dictGet r.meta "deleted") = some (some (Val.bool false)) ∧
    (storeGet (update_product [("id", Val.str "p1"), ("deleted", Val.bool true)]
        [("text-p1", ⟨"Headphones", [("id", Val.str "p1"), ("name", Val.str "Headphones")]⟩)]).2
        "text-p1").elim []
        (fun r => (search_text "headphones" [⟨r.meta, r.doc, 0⟩]).map (fun e => e.id)) =
      [Val.str "p1"] := by
  decide

/-- C1 (witness): the amended reactivation law evaluated at the concrete
soft-delete attempt on `p1`. -/
theorem c1_witness :
    (update_product [("id", Val.str "p1"), ("deleted", Val.bool true)]
        [("text-p1", ⟨"Headphones", [("id", Val.str "p1"), ("name", Val.str "Headphones")]⟩)]).1 =
      MutResult.updated ∧
    ∃ r', storeGet (update_product [("id", Val.str "p1"), ("deleted", Val.bool true)]
        [("text-p1", ⟨"Headphones", [("id", Val.str "p1"), ("name", Val.str "Headphones")]⟩)]).2
        ("text-" ++ "p1") = some r' ∧
      dictGet r'.meta "deleted" = some (Val.bool false) ∧
      ∀ d rk, build_result_from_meta r'.meta (some r'.doc) d rk ≠ none :=
  c1_update_reactivates [("id", Val.str "p1"), ("deleted", Val.bool true)]
    [("text-p1", ⟨"Headphones", [("id", Val.str "p1"), ("name", Val.str "Headphones")]⟩)]
    "p1" ⟨"Headphones", [("id", Val.str "p1"), ("name", Val.str "Headphones")]⟩
    (by decide) (by decide) (by decide) (by decide)

/-- C4 (amended): Update fails with NotFound (store unchanged) when no
text record exists; when it succeeds, EVERY key present in the payload —
`deleted` apart, which is forced to `False` — overwrites the stored
field unconditionally, empty values included, so a caller CAN blank out
a previously set field; keys absent from the payload keep their stored
values. -/
theorem c4_update_contract (payload : Dict) (store : Store) (pid : String)
    (hid : dictGet payload "id" = some (Val.str pid)) (hpid : pid ≠ "") :
    (storeGet store ("text-" ++ pid) = none →
      update_product payload store = (MutResult.notFound, store)) ∧
    (∀ r, storeGet store ("text-" ++ pid) = some r → r.meta ≠ [] →
      ∃ r', storeGet (update_product payload store).2 ("text-" ++ pid) = some r' ∧
        (update_product payload store).1 = MutResult.updated ∧
        (∀ k v, dictGet payload k = some v → k ≠ "deleted" → dictGet r'.meta k = some v) ∧
        (∀ k, dictGet payload k = none → k ≠ "deleted" → dictGet r'.meta k = dictGet r.meta k)) := by
  have hv : vget payload "id" = Val.str pid := by simp [vget, hid]
  have hc : (!pyTruthy (Val.str pid)) = false := by simp [pyTruthy, hpid]
  constructor
  · intro hnone
    unfold update_product
    simp only [hv, hc, Bool.false_eq_true, if_false, pyStrVal]
    rw [hnone]
  · intro r hr hne
    rw [update_product_success payload store pid r hid hpid hr hne]
    refine ⟨_, storeGet_upsert_self _ _ _, rfl, ?_, ?_⟩
    · intro k v hkv hkdel
      rw [dictGet_cons_ne _ _ _ _ (fun h => hkdel h.symm)]
      show dictGet (payload ++ r.meta) k = some v
      rw [dictGet_append, hkv]
      rfl
    · intro k hkv hkdel
      rw [dictGet_cons_ne _ _ _ _ (fun h => hkdel h.symm)]
      show dictGet (payload ++ r.meta) k = dictGet r.meta k
      rw [dictGet_append, hkv]
      rfl

/-- C4 (counterexample): updating `p1` with an explicitly empty
description blanks out the previously stored non-empty description —
contradicting the claim that only non-empty incoming values overwrite. -/
theorem c4_counterexample :
    (update_product [("id", Val.str "p1"), ("description", Val.str "")]
        [("text-p1", ⟨"Nice", [("id", Val.str "p1"), ("name", Val.str "Headphones"),
            ("description", Val.str "Nice")]⟩)]).1 = MutResult.updated ∧
    (storeGet (update_product [("id", Val.str "p1"), ("description", Val.str "")]
        [("text-p1", ⟨"Nice", [("id", Val.str "p1"), ("name", Val.str "Headphones"),
            ("description", Val.str "Nice")]⟩)]).2 "text-p1").map
        (fun r => dictGet r.meta "description") = some (some (Val.str "")) := by
  decide

/-- C4 (witness): the amended update contract evaluated at the concrete
blanking update of `p1`. -/
theorem c4_witness :
    ∃ r', storeGet (update_product [("id", Val.str "p1"), ("description", Val.str "")]
        [("text-p1", ⟨"Nice", [("id", Val.str "p1"), ("name", Val.str "Headphones"),
            ("description", Val.str "Nice")]⟩)]).2 ("text-" ++ "p1") = some r' ∧
      (update_product [("id", Val.str "p1"), ("description", Val.str "")]
        [("text-p1", ⟨"Nice", [("id", Val.str "p1"), ("name", Val.str "Headphones"),
            ("description", Val.str "Nice")]⟩)]).1 = MutResult.updated ∧
      (∀ k v, dictGet [("id", Val.str "p1"), ("description", Val.str "")] k = some v →
        k ≠ "deleted" → dictGet r'.meta k = some v) ∧
      (∀ k, dictGet [("id", Val.str "p1"), ("description", Val.str "")] k = none →
        k ≠ "deleted" → dictGet r'.meta k =
          dictGet [("id", Val.str "p1"), ("name", Val.str "Headphones"),
            ("description", Val.str "Nice")] k) :=
  (c4_update_contract [("id", Val.str "p1"), ("description", Val.str "")]
    [("text-p1", ⟨"Nice", [("id", Val.str "p1"), ("name", Val.str "Headphones"),
        ("description", Val.str "Nice")]⟩)] "p1" (by decide) (by decide)).2
    ⟨"Nice", [("id", Val.str "p1"), ("name", Val.str "Headphones"),
        ("description", Val.str "Nice")]⟩ (by decide) (by decide)

/-- Basic fact: the embeddable-document derivation
`description or name or ""` on string fields picks the first non-empty
one. -/
theorem pyDocText (dsc nm : String) :
    pyStrVal (pyOrV (Val.str dsc) (pyOrV (Val.str nm) (Val.str ""))) =
      (if dsc ≠ "" then dsc else if nm ≠ "" then nm else "") := by
  by_cases hd : dsc = "" <;> by_cases hn : nm = "" <;>
    simp [pyOrV, pyTruthy, pyStrVal, hd, hn]

/-- C6: Insert fails with AlreadyExists exactly when a text record for
the id exists and is not soft-deleted (store unchanged in that case);
otherwise it writes a fresh record with `deleted = False` whose
embeddable document is the description if non-empty, else the name if
non-empty, else the empty string. -/
theorem c6_insert_contract (payload : Dict) (store : Store) (pid dsc nm : String)
    (hid : dictGet payload "id" = some (Val.str pid)) (hpid : pid ≠ "")
    (hdsc : dictGet payload "description" = some (Val.str dsc))
    (hnm : dictGet payload "name" = some (Val.str nm))
    (hwf : WFStore store) :
    ((insert_product payload store).1 = MutResult.alreadyExists ↔
      ∃ r, storeGet store ("text-" ++ pid) = some r ∧
        pyTruthy ((dictGet r.meta "deleted").getD (Val.bool false)) = false) ∧
    ((insert_product payload store).1 = MutResult.alreadyExists →
      (insert_product payload store).2 = store) ∧
    ((insert_product payload store).1 ≠ MutResult.alreadyExists →
      (insert_product payload store).1 = MutResult.inserted ∧
      ∃ r', storeGet (insert_product payload store).2 ("text-" ++ pid) = some r' ∧
        dictGet r'.meta "deleted" = some (Val.bool false) ∧
        dictGet r'.meta "name" = some (Val.str nm) ∧
        dictGet r'.meta "description" = some (Val.str dsc) ∧
        r'.doc = (if dsc ≠ "" then dsc else if nm ≠ "" then nm else "")) := by
  have hv : vget payload "id" = Val.str pid := by simp [vget, hid]
  have hvd : vget payload "description" = Val.str dsc := by simp [vget, hdsc]
  have hvn : vget payload "name" = Val.str nm := by simp [vget, hnm]
  have hc : (!pyTruthy (Val.str pid)) = false := by simp [pyTruthy, hpid]
  cases hg : storeGet store ("text-" ++ pid) with
  | none =>
    have hred : insert_product payload store =
        (MutResult.inserted, storeUpsert store ("text-" ++ pid)
          ⟨pyStrVal (pyOrV (Val.str dsc) (pyOrV (Val.str nm) (Val.str ""))),
            [("id", Val.str pid), ("name", Val.str nm), ("description", Val.str dsc),
              ("images", vget payload "images"),
              ("specifications", vget payload "specifications"),
              ("deleted", Val.bool false)]⟩) := by
      unfold insert_product
      simp only [hv, hc, Bool.false_eq_true, if_false, pyStrVal]
      rw [hg]
      simp [hvd, hvn]
      rfl
    refine ⟨⟨fun h => ?_, fun h => ?_⟩, fun h => ?_, fun _ => ?_⟩
    · rw [hred] at h
      exact MutResult.noConfusion h
    · obtain ⟨r, hr, _⟩ := h
      exact absurd hr (by simp)
    · rw [hred] at h
      exact MutResult.noConfusion h
    · rw [hred]
      refine ⟨rfl, _, storeGet_upsert_self _ _ _, rfl, rfl, rfl, pyDocText dsc nm⟩
  | some r =>
    by_cases hdel : pyTruthy ((dictGet r.meta "deleted").getD (Val.bool false)) = false
    · have hne := hwf _ _ hg
      have hie : r.meta.isEmpty = false := by
        cases hm : r.meta with
        | nil => exact absurd hm hne
        | cons a t => rfl
      have hred : insert_product payload store = (MutResult.alreadyExists, store) := by
        unfold insert_product
        simp only [hv, hc, Bool.false_eq_true, if_false, pyStrVal]
        rw [hg]
        simp [hie, hdel]
      refine ⟨⟨fun _ => ⟨r, rfl, hdel⟩, fun _ => by rw [hred]⟩, fun _ => by rw [hred], fun hno => ?_⟩
      exact absurd (by rw [hred] : (insert_product payload store).1 = MutResult.alreadyExists) hno
    · have hdel' : pyTruthy ((dictGet r.meta "deleted").getD (Val.bool false)) = true := by
        cases h : pyTruthy ((dictGet r.meta "deleted").getD (Val.bool false)) with
        | false => exact absurd h hdel
        | true => rfl
      have hred : insert_product payload store =
          (MutResult.inserted, storeUpsert store ("text-" ++ pid)
            ⟨pyStrVal (pyOrV (Val.str dsc) (pyOrV (Val.str nm) (Val.str ""))),
              [("id", Val.str pid), ("name", Val.str nm), ("description", Val.str dsc),
                ("images", vget payload "images"),
                ("specifications", vget payload "specifications"),
                ("deleted", Val.bool false)]⟩) := by
        unfold insert_product
        simp only [hv, hc, Bool.false_eq_true, if_false, pyStrVal]
        rw [hg]
        simp [hdel', hvd, hvn]
        rfl
      refine ⟨⟨fun h => ?_, fun h => ?_⟩, fun h => ?_, fun _ => ?_⟩
      · rw [hred] at h
        exact MutResult.noConfusion h
      · obtain ⟨r2, hr2, hd2⟩ := h
        injection hr2 with he
        rw [← he, hdel'] at hd2
        exact absurd hd2 (by decide)
      · rw [hred] at h
        exact MutResult.noConfusion h
      · rw [hred]
        refine ⟨rfl, _, storeGet_upsert_self _ _ _, rfl, rfl, rfl, pyDocText dsc nm⟩

/-- C6 (witness): the insert contract evaluated at the spec's own
example — `id="p1"`, `name="Headphones"`, `description=""` on an empty
store inserts with embeddable document `"Headphones"`. -/
theorem c6_witness :
    ((insert_product [("id", Val.str "p1"), ("name", Val.str "Headphones"),
        ("description", Val.str "")] []).1 = MutResult.alreadyExists ↔
      ∃ r, storeGet [] ("text-" ++ "p1") = some r ∧
        pyTruthy ((dictGet r.meta "deleted").getD (Val.bool false)) = false) ∧
    ((insert_product [("id", Val.str "p1"), ("name", Val.str "Headphones"),
        ("description", Val.str "")] []).1 = MutResult.alreadyExists →
      (insert_product [("id", Val.str "p1"), ("name", Val.str "Headphones"),
        ("description", Val.str "")] []).2 = []) ∧
    ((insert_product [("id", Val.str "p1"), ("name", Val.str "Headphones"),
        ("description", Val.str "")] []).1 ≠ MutResult.alreadyExists →
      (insert_product [("id", Val.str "p1"), ("name", Val.str "Headphones"),
        ("description", Val.str "")] []).1 = MutResult.inserted ∧
      ∃ r', storeGet (insert_product [("id", Val.str "p1"), ("name", Val.str "Headphones"),
          ("description", Val.str "")] []).2 ("text-" ++ "p1") = some r' ∧
        dictGet r'.meta "deleted" = some (Val.bool false) ∧
        dictGet r'.meta "name" = some (Val.str "Headphones") ∧
        dictGet r'.meta "description" = some (Val.str "") ∧
        r'.doc = (if ("" : String) ≠ "" then "" else if ("Headphones" : String) ≠ "" then "Headphones" else "")) :=
  c6_insert_contract [("id", Val.str "p1"), ("name", Val.str "Headphones"),
      ("description", Val.str "")] [] "p1" "" "Headphones"
    (by decide) (by decide) (by decide) (by decide)
    (fun k r h => by simp [storeGet] at h)
